import Mathlib

/-!
Verification model of the `apk-uploader` service.

This file gives a shallow embedding of the two components of the
repository that the specification describes:

* `app/uploader.py` — the storage client (`OSSUploader`): extension
  validation, object-key construction, content-type selection, the single
  put-object call, result shaping and error wrapping.
* `app/main.py` — the upload handler (`upload_package`): the filename
  pre-check, the size-limit check, the empty-file check, delegation to the
  storage client and the mapping of failures to HTTP status codes.

Modelling conventions:

* Byte strings are `List Nat`; only their length and identity are ever
  used by the code under study.
* Python `str` is Lean `String`; the Python string primitives used by the
  source (`str.lower`, `str.upper`, `str.endswith`, `str.replace`,
  `str.lstrip`, `pathlib.Path(...).suffix`) are reimplemented below over
  `List Char`, following CPython's documented semantics.  Case mapping is
  modelled on the ASCII range (the inputs relevant to the claims are
  ASCII).
* Python `float` values that reach an f-string are modelled exactly: a
  value is kept as an unreduced fraction (`Frac`), `nearestDouble` rounds
  it to the nearest IEEE-754 binary64 value (round half to even,
  unbounded exponent range — exact for every value this program can
  produce), `pyFloatStr` renders the shortest round-tripping decimal the
  way `str(float)` does, and `pyFixed2` renders `format(x, '.2f')`.
  `Frac` is used instead of Mathlib's `ℚ` because the kernel cannot
  evaluate `Rat` arithmetic, and all witnesses below are checked by
  kernel reduction.
* CPython iterates the set literal `{'.apk', '.aab'}` in a hash-dependent
  order; the embedding fixes the insertion order `['.apk', '.aab']`.
  No settled claim depends on that order.
* The external store is a parameter (`PutOutcome`): the status returned
  by `put_object`, or the message of a raised transport exception.
  Observable side effects (reading the request body, the put-object call
  with its object key and Content-Type header, closing the inbound file)
  are collected in an effect trace.
-/

/-- Floor of log base 2 on naturals, fuel-based so that the kernel can
evaluate it (`natLog2Fuel n n` is exact for every `n`). -/
def natLog2Fuel : Nat → Nat → Nat
  | 0, _ => 0
  | fuel + 1, n => if 2 ≤ n then natLog2Fuel fuel (n / 2) + 1 else 0

/-- Floor of log base 2 (`natLog2 0 = 0`). -/
def natLog2 (n : Nat) : Nat := natLog2Fuel n n

/-- Floor of log base 10 on naturals, fuel-based. -/
def natLog10Fuel : Nat → Nat → Nat
  | 0, _ => 0
  | fuel + 1, n => if 10 ≤ n then natLog10Fuel fuel (n / 10) + 1 else 0

/-- Floor of log base 10 (`natLog10 0 = 0`). -/
def natLog10 (n : Nat) : Nat := natLog10Fuel n n

/-- An exact rational number as an unreduced fraction.  Every constructor
application below keeps the invariant `0 < den`.  Unlike Mathlib's `ℚ`,
arithmetic on `Frac` needs no gcd normalisation, so the kernel can
evaluate it; value equality is tested by cross-multiplication (`feq`). -/
structure Frac where
  num : Int
  den : Int
deriving DecidableEq

/-- Embed an integer. -/
def Frac.ofInt (n : Int) : Frac := ⟨n, 1⟩

/-- Multiplication of fractions. -/
def Frac.mul (a b : Frac) : Frac := ⟨a.num * b.num, a.den * b.den⟩

/-- Subtraction of fractions. -/
def Frac.sub (a b : Frac) : Frac := ⟨a.num * b.den - b.num * a.den, a.den * b.den⟩

/-- Negation. -/
def Frac.neg (a : Frac) : Frac := ⟨-a.num, a.den⟩

/-- Absolute value (denominators are positive by invariant). -/
def Frac.abs (a : Frac) : Frac := ⟨(a.num.natAbs : Int), a.den⟩

/-- Strict comparison of values (assumes positive denominators). -/
def fblt (a b : Frac) : Bool := decide (a.num * b.den < b.num * a.den)

/-- Non-strict comparison of values (assumes positive denominators). -/
def fble (a b : Frac) : Bool := decide (a.num * b.den ≤ b.num * a.den)

/-- Value equality by cross-multiplication (assumes positive denominators). -/
def feq (a b : Frac) : Bool := decide (a.num * b.den = b.num * a.den)

/-- Floor of a fraction, via floor division on `Int`. -/
def Frac.floor (a : Frac) : Int := Int.fdiv a.num a.den

/-- Round a value to the nearest integer, ties to even — the rounding used
both by IEEE-754 binary64 arithmetic and by Python's `round`/`format`. -/
def roundHalfEvenF (a : Frac) : Int :=
  let n := a.floor
  let r := a.sub (Frac.ofInt n)
  if fblt r ⟨1, 2⟩ then n
  else if fblt ⟨1, 2⟩ r then n + 1
  else if n % 2 = 0 then n else n + 1

/-- The fraction `2 ^ k` for an integer exponent. -/
def fpow2 (k : Int) : Frac :=
  if 0 ≤ k then ⟨((2 ^ k.toNat : Nat) : Int), 1⟩ else ⟨1, ((2 ^ (-k).toNat : Nat) : Int)⟩

/-- The fraction `10 ^ k` for an integer exponent. -/
def fpow10 (k : Int) : Frac :=
  if 0 ≤ k then ⟨((10 ^ k.toNat : Nat) : Int), 1⟩ else ⟨1, ((10 ^ (-k).toNat : Nat) : Int)⟩

/-- Floor of log base 2 of a positive fraction: the unique `k` with
`2 ^ k ≤ x < 2 ^ (k+1)`, located by searching around a fuel-computed
estimate. -/
def fFloorLog2 (x : Frac) : Int :=
  let est : Int := (natLog2 x.num.toNat : Int) - (natLog2 x.den.toNat : Int)
  ((([est - 2, est - 1, est, est + 1, est + 2] : List Int).find?
    (fun k => fble (fpow2 k) x && fblt x (fpow2 (k + 1)))).getD 0)

/-- Floor of log base 10 of a positive fraction. -/
def fFloorLog10 (x : Frac) : Int :=
  let est : Int := (natLog10 x.num.toNat : Int) - (natLog10 x.den.toNat : Int)
  ((([est - 2, est - 1, est, est + 1, est + 2] : List Int).find?
    (fun k => fble (fpow10 k) x && fblt x (fpow10 (k + 1)))).getD 0)

/-- Round an exact value to the nearest IEEE-754 binary64 value (round
half to even on a 53-bit significand).  The exponent range is unbounded:
this agrees with real doubles on the whole normal range, which covers
every value reachable in this program. -/
def nearestDouble (a : Frac) : Frac :=
  if a.num = 0 then ⟨0, 1⟩
  else
    let x := a.abs
    let e := fFloorLog2 x
    let m := roundHalfEvenF (x.mul (fpow2 (52 - e)))
    let v := (Frac.ofInt m).mul (fpow2 (e - 52))
    if a.num < 0 then v.neg else v

/-- Correctly round a positive value to `p` significant decimal digits.
Returns the digit block (as an integer with `p` digits) and the decimal
exponent of the leading digit. -/
def sigRound (p : Nat) (x : Frac) : Int × Int :=
  let e10 := fFloorLog10 x
  let d := roundHalfEvenF (x.mul (fpow10 ((p : Int) - 1 - e10)))
  if d = ((10 ^ p : Nat) : Int) then (((10 ^ (p - 1) : Nat) : Int), e10 + 1) else (d, e10)

/-- The value denoted by a digit block `d` of `p` digits with leading
decimal exponent `e10`. -/
def sigValue (d : Int) (p : Nat) (e10 : Int) : Frac :=
  (Frac.ofInt d).mul (fpow10 (e10 - (p : Int) + 1))

/-- Shortest significant-digit representation that round-trips through
binary64 rounding, as produced by CPython's `repr`/`str` for floats: the
smallest `p ≤ 17` whose correctly rounded `p`-digit decimal reads back as
exactly `x`. -/
def shortestSig (x : Frac) : Int × Int :=
  let attempt := fun (p : Nat) =>
    let (d, e10) := sigRound p x
    if feq (nearestDouble (sigValue d p e10)) x then some (d, e10) else none
  ((((List.range 17).map (fun i => i + 1)).findSome? attempt).getD (sigRound 17 x))

/-- Drop trailing decimal zeros from a digit block (value-preserving in
combination with the leading exponent), fuel-based. -/
def stripZerosFuel : Nat → Nat → Nat
  | 0, d => d
  | fuel + 1, d => if d ≠ 0 ∧ d % 10 = 0 then stripZerosFuel fuel (d / 10) else d

/-- Drop trailing decimal zeros from a digit block. -/
def stripTrailingZeros (d : Nat) : Nat := stripZerosFuel d d

/-- A run of `n` zero characters. -/
def zerosStr (n : Nat) : String := String.mk (List.replicate n '0')

/-- Fixed-notation rendering of a digit string `ds` whose leading digit
has decimal exponent `e10`, as CPython prints floats in the non-scientific
regime (always at least one fractional digit). -/
def fixedRender (ds : String) (e10 : Int) : String :=
  let p : Int := (ds.length : Int)
  if p - 1 ≤ e10 then ds ++ zerosStr (e10 - (p - 1)).toNat ++ ".0"
  else if 0 ≤ e10 then ds.take (e10 + 1).toNat ++ "." ++ ds.drop (e10 + 1).toNat
  else "0." ++ zerosStr ((-e10).toNat - 1) ++ ds

/-- Scientific-notation rendering, as CPython prints floats when the
decimal exponent is below -4 or at least 16 (exponent always signed and
at least two digits wide). -/
def sciRender (ds : String) (e10 : Int) : String :=
  let mant := if ds.length = 1 then ds else ds.take 1 ++ "." ++ ds.drop 1
  let esgn := if e10 < 0 then "-" else "+"
  let eabs := (if e10 < 0 then -e10 else e10).toNat
  let estr := if eabs < 10 then "0" ++ toString eabs else toString eabs
  mant ++ "e" ++ esgn ++ estr

/-- Python's default rendering of a float value, `str(x)` (equivalently
`f"{x}"`): round to binary64, then print the shortest round-tripping
decimal, in fixed notation when the leading decimal exponent is in
`[-4, 16)` and scientific notation otherwise. -/
def pyFloatStr (a : Frac) : String :=
  let x := nearestDouble a
  if x.num = 0 then "0.0"
  else
    let sgn := if x.num < 0 then "-" else ""
    let (d0, e10) := shortestSig x.abs
    let ds := toString (stripTrailingZeros d0.toNat)
    sgn ++ (if -4 ≤ e10 ∧ e10 < 16 then fixedRender ds e10 else sciRender ds e10)

/-- Python's `f"{x:.2f}"`: round to binary64, then correctly round that
value to two decimal places (ties to even) and print with exactly two
fractional digits. -/
def pyFixed2 (a : Frac) : String :=
  let x := nearestDouble a
  let sgn := if x.num < 0 then "-" else ""
  let n := (roundHalfEvenF ((x.abs).mul ⟨100, 1⟩)).toNat
  sgn ++ toString (n / 100) ++ "." ++
    (if n % 100 < 10 then "0" ++ toString (n % 100) else toString (n % 100))

/-- Python's `round(x, 2)` on an exactly representable value: the nearest
multiple of 1/100, ties to even, kept as an exact fraction. -/
def pyRound2 (a : Frac) : Frac := ⟨roundHalfEvenF (a.mul ⟨100, 1⟩), 100⟩

/-- ASCII model of the case mapping done by Python's `str.lower`. -/
def pyCharLower (c : Char) : Char :=
  if 65 ≤ c.toNat ∧ c.toNat ≤ 90 then Char.ofNat (c.toNat + 32) else c

/-- ASCII model of the case mapping done by Python's `str.upper`. -/
def pyCharUpper (c : Char) : Char :=
  if 97 ≤ c.toNat ∧ c.toNat ≤ 122 then Char.ofNat (c.toNat - 32) else c

/-- Python's `str.lower`. -/
def pyLower (s : String) : String := String.mk (s.data.map pyCharLower)

/-- Python's `str.upper`. -/
def pyUpper (s : String) : String := String.mk (s.data.map pyCharUpper)

/-- Python's `str.lstrip('.')`: remove every leading dot. -/
def pyLstripDot (s : String) : String := String.mk (s.data.dropWhile (fun c => c == '.'))

/-- Python's `str.endswith`. -/
def pyEndsWith (s sfx : String) : Bool := sfx.data.isSuffixOf s.data

/-- Does `needle` occur as a contiguous substring of the list? -/
def containsSub (needle : List Char) : List Char → Bool
  | [] => needle.isPrefixOf []
  | c :: rest => needle.isPrefixOf (c :: rest) || containsSub needle rest

/-- Does `needle` occur as a contiguous substring of `s`? -/
def containsSubStr (s needle : String) : Bool := containsSub needle.data s.data

/-- Python's `str.replace(pat, '')` on character lists: delete every
occurrence of `pat`, scanning left to right, non-overlapping.  Fuel-based
(one unit of fuel per character consumed) so the kernel can evaluate it;
`fuel = length of the list` is always sufficient. -/
def removeAllFuel (pat : List Char) : Nat → List Char → List Char
  | 0, l => l
  | _ + 1, [] => []
  | fuel + 1, c :: rest =>
    if pat.isPrefixOf (c :: rest) ∧ pat ≠ [] then
      removeAllFuel pat fuel ((c :: rest).drop pat.length)
    else c :: removeAllFuel pat fuel rest

/-- Python's `s.replace(pat, '')` on character lists. -/
def removeAllSub (pat l : List Char) : List Char := removeAllFuel pat l.length l

/-- Python's `s.replace(pat, '')`. -/
def pyReplaceDel (s pat : String) : String := String.mk (removeAllSub pat.data s.data)

/-- The final path component, as computed by `pathlib.PurePosixPath.name`:
split on `'/'`, drop components that are empty or `'.'`, and take the last
remaining component (empty if none remains).  The input is the reversed
character list; fuel-based with `fuel = length` (each step consumes at
least one character). -/
def pyNameRevFuel : Nat → List Char → List Char
  | 0, _ => []
  | _ + 1, [] => []
  | fuel + 1, c :: rest =>
    if ((c :: rest).takeWhile (fun ch => ch != '/')).reverse = [] ∨
       ((c :: rest).takeWhile (fun ch => ch != '/')).reverse = ['.'] then
      pyNameRevFuel fuel ((c :: rest).drop (((c :: rest).takeWhile (fun ch => ch != '/')).length + 1))
    else ((c :: rest).takeWhile (fun ch => ch != '/')).reverse

/-- `pathlib.Path(s).name` over a character list (POSIX flavour). -/
def pyPathName (l : List Char) : List Char := pyNameRevFuel l.length l.reverse

/-- Index, counted from the start of the (already reversed) list, of the
first `'.'` — i.e. of the last `'.'` of the original list. -/
def firstDotRev : List Char → Option Nat
  | [] => none
  | c :: rest => if c = '.' then some 0 else (firstDotRev rest).map (fun j => j + 1)

/-- `pathlib.PurePath.suffix` applied to a final path component `name`:
let `i` be the index of the last dot; the suffix is `name[i:]` when
`0 < i < len(name) - 1` and empty otherwise. -/
def pySuffix (name : List Char) : List Char :=
  match firstDotRev name.reverse with
  | none => []
  | some j =>
    let i := name.length - 1 - j
    if 0 < i ∧ i < name.length - 1 then name.drop i else []

/-- Whether an `Except` value is a success. -/
def exceptOk {ε α : Type} : Except ε α → Bool
  | .ok _ => true
  | .error _ => false

/-- `OSSUploader.SUPPORTED_EXTENSIONS`, the set `{'.apk', '.aab'}`, fixed
to insertion order (CPython set iteration order is hash-dependent; no
settled claim depends on the order). -/
def SUPPORTED_EXTENSIONS : List String := [".apk", ".aab"]

/-- `OSSUploader.CONTENT_TYPES.get(extension, 'application/octet-stream')`. -/
def contentTypeFor (extension : String) : String :=
  if extension = ".apk" then "application/vnd.android.package-archive"
  else if extension = ".aab" then "application/x-authorware-bin"
  else "application/octet-stream"

/-- The custom-name cleaning loop of `OSSUploader.upload_file`:
`for ext in SUPPORTED_EXTENSIONS: custom_name = custom_name.replace(ext, '')`. -/
def stripExtensions (customName : String) : String :=
  SUPPORTED_EXTENSIONS.foldl (fun acc ext => pyReplaceDel acc ext) customName

/-- Specification-side restatement of the cleaning step: the custom name
with every substring occurrence of '.apk' removed and then every
substring occurrence of '.aab' removed (not just a trailing match). -/
def specStripped (customName : String) : String :=
  pyReplaceDel (pyReplaceDel customName ".apk") ".aab"

/-- `OSSUploader._get_file_extension`: `Path(filename).suffix.lower()`. -/
def getFileExtension (filename : String) : String :=
  String.mk ((pySuffix (pyPathName filename.data)).map pyCharLower)

/-- `OSSUploader._validate_file_extension`: returns the extension, or the
`ValueError` message when it is not supported. -/
def validateFileExtension (filename : String) : Except String String :=
  let extension := getFileExtension filename
  if extension ∈ SUPPORTED_EXTENSIONS then Except.ok extension
  else Except.error ("File must be an Android package (" ++
    String.intercalate ", " SUPPORTED_EXTENSIONS ++ "), got: " ++ filename)

/-- The configuration held by `OSSUploader.__init__` (the field `pre`
models the source attribute `prefix`, renamed for Lean). -/
structure OSSUploader where
  accessKeyId : String
  accessKeySecret : String
  endpoint : String
  bucketName : String
  region : String
  pre : String
deriving DecidableEq

/-- Object-key construction of `OSSUploader.upload_file`: with a truthy
custom name, strip supported extensions from it and append the validated
extension; otherwise use the original filename verbatim. -/
def objectNameFor (u : OSSUploader) (filename : String) (customName : Option String)
    (extension : String) : String :=
  match customName with
  | some cn =>
    if cn != "" then u.pre ++ "/" ++ stripExtensions cn ++ extension
    else u.pre ++ "/" ++ filename
  | none => u.pre ++ "/" ++ filename

/-- Observable side effects of one request, in order of occurrence. -/
inductive Effect
  | readBody
  | putObject (objectName contentType : String) (bodyLen : Nat)
  | closeFile
deriving DecidableEq

/-- Whether an effect is a put-object call to the store. -/
def Effect.isPut : Effect → Bool
  | .putObject _ _ _ => true
  | _ => false

/-- Behaviour of the external store on the (single) put-object call:
either a response with an HTTP status, or a raised transport exception
with message text. -/
inductive PutOutcome
  | status (code : Nat)
  | raisesError (msg : String)
deriving DecidableEq

/-- How `upload_file` can fail, matching the Python exception classes the
handler distinguishes: `ValueError` (validation) versus `Exception`
(wrapped upload failure). -/
inductive UploadError
  | valueError (msg : String)
  | exn (msg : String)
deriving DecidableEq

/-- The dict returned by `OSSUploader.upload_file` on success. -/
structure UploadResult where
  success : Bool
  url : String
  object_name : String
  bucket : String
  file_type : String
  size_mb : Frac
deriving DecidableEq

/-- The original error text wrapped by `upload_file`'s generic handler:
`str(e)` of the status exception, or of the transport exception. -/
def originalErrText : PutOutcome → String
  | .status code => "Upload failed with status: " ++ toString code
  | .raisesError m => m

/-- `OSSUploader.upload_file`: validate the extension, build the object
key, pick the content type, perform one put-object call, and either shape
the success dict or wrap the failure.  Returns the outcome together with
the trace of store effects. -/
def uploadFile (u : OSSUploader) (store : PutOutcome) (fileLen : Nat)
    (filename : String) (customName : Option String) :
    Except UploadError UploadResult × List Effect :=
  match validateFileExtension filename with
  | .error m => (Except.error (UploadError.valueError m), [])
  | .ok extension =>
    let objectName := objectNameFor u filename customName extension
    let fileSizeMb : Frac := ⟨(fileLen : Int), 1024 * 1024⟩
    let contentType := contentTypeFor extension
    let put := Effect.putObject objectName contentType fileLen
    match store with
    | .raisesError m =>
      (Except.error (UploadError.exn ("Failed to upload Android package: " ++ m)), [put])
    | .status code =>
      if code ≠ 200 then
        (Except.error (UploadError.exn
          ("Failed to upload Android package: Upload failed with status: " ++ toString code)),
         [put])
      else
        (Except.ok
          { success := true,
            url := "https://download.macaron.chat/" ++ objectName,
            object_name := objectName,
            bucket := u.bucketName,
            file_type := pyUpper (pyLstripDot extension),
            size_mb := pyRound2 fileSizeMb },
         [put])

/-- The application settings (`app/config.py`).  The field `ossPre`
models `oss_prefix`; `maxUploadSize` is `max_upload_size` (a Python
`int`, hence `Int`). -/
structure Settings where
  ossAccessKeyId : String
  ossAccessKeySecret : String
  ossEndpoint : String
  ossBucketName : String
  ossRegion : String
  ossPre : String
  maxUploadSize : Int
deriving DecidableEq

/-- A `Settings` value with every defaulted field at its `config.py`
default (the two credentials are required and have no default). -/
def mkDefaultSettings (akid aksecret : String) : Settings :=
  { ossAccessKeyId := akid, ossAccessKeySecret := aksecret,
    ossEndpoint := "https://oss-ap-southeast-1.aliyuncs.com",
    ossBucketName := "macaron-system",
    ossRegion := "ap-southeast-1",
    ossPre := "android-packages",
    maxUploadSize := 250 * 1024 * 1024 }

/-- `get_uploader`: the dependency wiring from settings to the storage
client. -/
def getUploader (s : Settings) : OSSUploader :=
  { accessKeyId := s.ossAccessKeyId, accessKeySecret := s.ossAccessKeySecret,
    endpoint := s.ossEndpoint, bucketName := s.ossBucketName,
    region := s.ossRegion, pre := s.ossPre }

/-- The handler's own file-type pre-check:
`file.filename.lower().endswith('.apk') or ...endswith('.aab')`. -/
def handlerAccepts (filename : String) : Bool :=
  pyEndsWith (pyLower filename) ".apk" || pyEndsWith (pyLower filename) ".aab"

/-- The JSON envelope of a 200 response. -/
structure SuccessBody where
  success : Bool
  message : String
  data : UploadResult
deriving DecidableEq

/-- The HTTP response of the upload handler: a 200 envelope, or an error
status with its `detail` string. -/
inductive HResponse
  | ok (body : SuccessBody)
  | err (code : Nat) (detail : String)
deriving DecidableEq

/-- The HTTP status of a response. -/
def HResponse.statusCode : HResponse → Nat
  | .ok _ => 200
  | .err code _ => code

/-- The 413 detail string:
`f"File too large. Maximum size: {max_size_mb}MB, Got: {actual_size_mb:.2f}MB"`,
where `max_size_mb = settings.max_upload_size / (1024 * 1024)` is rendered
with Python's default float formatting and `actual_size_mb` with `.2f`. -/
def tooLargeDetail (maxSize : Int) (fileSize : Nat) : String :=
  "File too large. Maximum size: " ++ pyFloatStr ⟨maxSize, 1024 * 1024⟩ ++
  "MB, Got: " ++ pyFixed2 ⟨(fileSize : Int), 1024 * 1024⟩ ++ "MB"

/-- `upload_package` (`POST /upload`): the handler's pre-check, body read,
size-limit check, empty-file check, delegation to the storage client, and
mapping of outcomes to HTTP responses.  The effect trace records the body
read, any put-object call, and the `finally` close of the inbound file. -/
def uploadPackage (settings : Settings) (store : PutOutcome) (filename : String)
    (customName : Option String) (content : List Nat) : HResponse × List Effect :=
  if handlerAccepts filename then
    let fileSize := content.length
    if (fileSize : Int) > settings.maxUploadSize then
      (HResponse.err 413 (tooLargeDetail settings.maxUploadSize fileSize),
       [Effect.readBody, Effect.closeFile])
    else if fileSize = 0 then
      (HResponse.err 400 "Empty file uploaded", [Effect.readBody, Effect.closeFile])
    else
      match uploadFile (getUploader settings) store fileSize filename customName with
      | (.ok r, puts) =>
        (HResponse.ok
          { success := true,
            message := (if pyEndsWith (pyLower filename) ".apk" then "APK" else "AAB") ++
              " file uploaded successfully",
            data := r },
         Effect.readBody :: puts ++ [Effect.closeFile])
      | (.error (.valueError m), puts) =>
        (HResponse.err 400 m, Effect.readBody :: puts ++ [Effect.closeFile])
      | (.error (.exn m), puts) =>
        (HResponse.err 500 ("Failed to upload Android package: " ++ m),
         Effect.readBody :: puts ++ [Effect.closeFile])
  else
    (HResponse.err 400 ("Invalid file type. Only APK and AAB files are allowed. Got: " ++ filename),
     [Effect.closeFile])

set_option maxRecDepth 100000

/-- `removeAllFuel` over the insertion-order extension list coincides
with the specification's reading: remove every occurrence of '.apk',
then every occurrence of '.aab'. -/
theorem stripExtensions_eq_specStripped (customName : String) :
    stripExtensions customName = specStripped customName := rfl

/-- A suffix of a mapped list is the image of a suffix. -/
theorem suffix_map_extract {α β : Type} (f : α → β) {l : List α} {t : List β}
    (h : t <:+ List.map f l) : ∃ s, s <:+ l ∧ List.map f s = t := by
  obtain ⟨u, hu⟩ := h
  refine ⟨l.drop (l.length - t.length), List.drop_suffix _ _, ?_⟩
  have hlen : u.length + t.length = l.length := by
    have hcg := congrArg List.length hu
    simpa using hcg
  rw [List.map_drop, ← hu]
  have hd : l.length - t.length = u.length := by omega
  rw [hd, List.drop_left]

/-- Only the dot lowers to a dot in the ASCII case mapping. -/
theorem pyCharLower_eq_dot {c : Char} (h : pyCharLower c = '.') : c = '.' := by
  unfold pyCharLower at h
  split at h
  · exfalso
    rename_i hc
    obtain ⟨h1, h2⟩ := hc
    interval_cases hn : c.toNat <;> exact absurd h (by decide)
  · exact h

/-- A character that lowers to something other than '.' is not '.'. -/
theorem lower_ne_dot {c d : Char} (h : pyCharLower c = d) (hd : d ≠ '.') : c ≠ '.' := by
  intro hc
  subst hc
  rw [show pyCharLower '.' = '.' from by decide] at h
  exact hd h.symm

/-- A character that lowers to something other than '/' is not '/'. -/
theorem lower_ne_slash {c d : Char} (h : pyCharLower c = d) (hd : d ≠ '/') : c ≠ '/' := by
  intro hc
  subst hc
  rw [show pyCharLower '/' = '/' from by decide] at h
  exact hd h.symm

/-- Unfolding step of the path-name scanner when the rightmost component
is kept. -/
theorem pyNameRevFuel_keep (fuel : Nat) (c : Char) (rest : List Char)
    (h : ¬(((c :: rest).takeWhile (fun ch => ch != '/')).reverse = [] ∨
           ((c :: rest).takeWhile (fun ch => ch != '/')).reverse = ['.'])) :
    pyNameRevFuel (fuel + 1) (c :: rest) =
      ((c :: rest).takeWhile (fun ch => ch != '/')).reverse := by
  simp only [pyNameRevFuel]
  rw [if_neg h]

/-- `List.isSuffixOf` agrees with the suffix relation. -/
theorem isSuffixOf_iff_suffix {l₁ l₂ : List Char} :
    l₁.isSuffixOf l₂ = true ↔ l₁ <:+ l₂ := by
  rw [List.isSuffixOf, List.isPrefixOf_iff_prefix, List.reverse_prefix]

/-- Structure of `Path(...).suffix` for a filename accepted by the
handler pre-check: if the lower-cased character list ends with a
supported extension pattern and the final path component is longer than
the bare four-character extension, then the computed (lower-cased) suffix
is exactly that extension pattern. -/
theorem ext_suffix_of_accepts {l : List Char} {d2 d3 d4 : Char}
    (hd2 : d2 ≠ '.') (hd3 : d3 ≠ '.') (hd4 : d4 ≠ '.')
    (hs2 : d2 ≠ '/') (hs3 : d3 ≠ '/') (hs4 : d4 ≠ '/')
    (hs : ['.', d2, d3, d4] <:+ l.map pyCharLower)
    (hlen : 4 < (pyPathName l).length) :
    (pySuffix (pyPathName l)).map pyCharLower = ['.', d2, d3, d4] := by
  obtain ⟨s, hsl, hmap⟩ := suffix_map_extract pyCharLower hs
  have hlens : s.length = 4 := by
    have hcg := congrArg List.length hmap
    simpa using hcg
  rcases s with _ | ⟨c1, _ | ⟨c2, _ | ⟨c3, _ | ⟨c4, _ | ⟨c5, s⟩⟩⟩⟩⟩ <;> simp at hlens
  simp only [List.map_cons, List.map_nil, List.cons.injEq, and_true] at hmap
  obtain ⟨e1, e2, e3, e4⟩ := hmap
  have hc1 : c1 = '.' := pyCharLower_eq_dot e1
  subst hc1
  have hc2d : c2 ≠ '.' := lower_ne_dot e2 hd2
  have hc3d : c3 ≠ '.' := lower_ne_dot e3 hd3
  have hc4d : c4 ≠ '.' := lower_ne_dot e4 hd4
  have hc2s : c2 ≠ '/' := lower_ne_slash e2 hs2
  have hc3s : c3 ≠ '/' := lower_ne_slash e3 hs3
  have hc4s : c4 ≠ '/' := lower_ne_slash e4 hs4
  obtain ⟨u, hu⟩ := hsl
  subst hu
  -- the reversed list starts with the reversed extension
  have hrev : (u ++ ['.', c2, c3, c4]).reverse = c4 :: c3 :: c2 :: '.' :: u.reverse := by
    simp
  have hlenl : (u ++ ['.', c2, c3, c4]).length = (u.length + 3) + 1 := by
    simp
  -- the rightmost path component of the reversed list
  have htw : (c4 :: c3 :: c2 :: '.' :: u.reverse).takeWhile (fun ch => ch != '/') =
      c4 :: c3 :: c2 :: '.' :: (u.reverse.takeWhile (fun ch => ch != '/')) := by
    simp [List.takeWhile_cons, bne_iff_ne, hc4s, hc3s, hc2s]
  have hcond : ¬(((c4 :: c3 :: c2 :: '.' :: u.reverse).takeWhile
        (fun ch => ch != '/')).reverse = [] ∨
      ((c4 :: c3 :: c2 :: '.' :: u.reverse).takeWhile
        (fun ch => ch != '/')).reverse = ['.']) := by
    rw [htw]
    intro hcontra
    rcases hcontra with h | h
    · apply_fun List.length at h
      simp at h
    · apply_fun List.length at h
      simp at h
  have hname : pyPathName (u ++ ['.', c2, c3, c4]) =
      (u.reverse.takeWhile (fun ch => ch != '/')).reverse ++ ['.', c2, c3, c4] := by
    rw [pyPathName, hrev, hlenl, pyNameRevFuel_keep _ _ _ hcond, htw]
    simp
  rw [hname] at hlen ⊢
  set w := u.reverse.takeWhile (fun ch => ch != '/') with hw
  have hwpos : 0 < w.length := by
    simp at hlen
    omega
  -- locate the last dot of the component
  have hdotrev : firstDotRev ((w.reverse ++ ['.', c2, c3, c4]).reverse) = some 3 := by
    have hr : (w.reverse ++ ['.', c2, c3, c4]).reverse = c4 :: c3 :: c2 :: '.' :: w := by
      simp
    rw [hr]
    simp [firstDotRev, hc4d, hc3d, hc2d]
  have hlname : (w.reverse ++ ['.', c2, c3, c4]).length = w.length + 4 := by
    simp
  have hdrop : (w.reverse ++ ['.', c2, c3, c4]).drop (w.length + 4 - 1 - 3) =
      ['.', c2, c3, c4] := by
    have hwl : w.length + 4 - 1 - 3 = w.reverse.length := by
      simp
    rw [hwl, List.drop_left]
  rw [pySuffix, hdotrev]
  simp only [hlname]
  rw [if_pos (by omega)]
  rw [hdrop]
  simp [e1, e2, e3, e4]

/-- A success of `_validate_file_extension` returns a supported extension. -/
theorem validate_ok_mem {filename extension : String}
    (h : validateFileExtension filename = Except.ok extension) :
    extension ∈ SUPPORTED_EXTENSIONS := by
  simp only [validateFileExtension] at h
  split at h
  · rename_i hmem
    cases h
    exact hmem
  · exact absurd h (by simp)

/-- Claim C2 (counterexample): the handler pre-check accepts the bare
filename ".apk" (its lower-cased form ends with ".apk"), yet the storage
client's own extension validation fails on it — `Path('.apk').suffix` is
empty — so the `UnsupportedFileType` branch is reachable after the
pre-check: the full handler run answers 400 out of that branch, with no
put-object call. -/
theorem c2_counterexample :
    handlerAccepts ".apk" = true ∧
    exceptOk (validateFileExtension ".apk") = false ∧
    (uploadPackage (mkDefaultSettings "" "") (PutOutcome.status 200) ".apk" none [1]).1.statusCode
      = 400 ∧
    ((uploadPackage (mkDefaultSettings "" "") (PutOutcome.status 200) ".apk" none [1]).2.countP
      Effect.isPut) = 0 := by
  decide

/-- Claim C2 (amended): for every filename whose lower-cased form ends in
".apk" or ".aab" AND whose final path component is longer than the bare
four-character extension, the storage client's extension validation
inside uploadFile succeeds, i.e. its UnsupportedFileType (ValueError)
failure branch is unreachable.  (The unamended claim fails exactly on
filenames whose final component is the bare dotfile ".apk"/".aab".) -/
theorem c2_amended (filename : String)
    (ha : handlerAccepts filename = true)
    (hname : 4 < (pyPathName filename.data).length) :
    exceptOk (validateFileExtension filename) = true := by
  have ha2 : pyEndsWith (pyLower filename) ".apk" = true ∨
      pyEndsWith (pyLower filename) ".aab" = true := by
    simpa [handlerAccepts, Bool.or_eq_true] using ha
  have hdata : (pyLower filename).data = filename.data.map pyCharLower := rfl
  rcases ha2 with hend | hend
  · have hsfx : ['.', 'a', 'p', 'k'] <:+ filename.data.map pyCharLower := by
      have hiff := (@isSuffixOf_iff_suffix (".apk".data) ((pyLower filename).data)).mp
      rw [hdata] at hiff
      exact hiff hend
    have hext := ext_suffix_of_accepts (by decide) (by decide) (by decide)
      (by decide) (by decide) (by decide) hsfx hname
    have hget : getFileExtension filename = ".apk" := by
      rw [getFileExtension, hext]
    simp [validateFileExtension, hget, SUPPORTED_EXTENSIONS, exceptOk]
  · have hsfx : ['.', 'a', 'a', 'b'] <:+ filename.data.map pyCharLower := by
      have hiff := (@isSuffixOf_iff_suffix (".aab".data) ((pyLower filename).data)).mp
      rw [hdata] at hiff
      exact hiff hend
    have hext := ext_suffix_of_accepts (by decide) (by decide) (by decide)
      (by decide) (by decide) (by decide) hsfx hname
    have hget : getFileExtension filename = ".aab" := by
      rw [getFileExtension, hext]
    simp [validateFileExtension, hget, SUPPORTED_EXTENSIONS, exceptOk]

/-- Claim C2 (witness for the amended theorem), at the ordinary filename
"app.apk". -/
theorem c2_witness :
    handlerAccepts "app.apk" = true ∧
    4 < (pyPathName "app.apk".data).length ∧
    exceptOk (validateFileExtension "app.apk") = true := by
  refine ⟨by decide, by decide, c2_amended "app.apk" (by decide) (by decide)⟩

/-- Claim C4: for every request whose filename's lower-cased suffix is
neither ".apk" nor ".aab", the handler rejects with HTTP 400
(InvalidFileType) before the file body is read and before any put-object
call, regardless of the payload or custom name: the whole effect trace is
just the finally-close of the inbound file. -/
theorem c4_invalid_type (settings : Settings) (store : PutOutcome) (filename : String)
    (customName : Option String) (content : List Nat)
    (h : handlerAccepts filename = false) :
    uploadPackage settings store filename customName content =
      (HResponse.err 400 ("Invalid file type. Only APK and AAB files are allowed. Got: " ++
        filename), [Effect.closeFile]) := by
  simp [uploadPackage, h]

/-- Claim C4 (witness) at the filename "app.txt". -/
theorem c4_witness :
    uploadPackage (mkDefaultSettings "" "") (PutOutcome.status 200) "app.txt" none [1, 2] =
      (HResponse.err 400 "Invalid file type. Only APK and AAB files are allowed. Got: app.txt",
       [Effect.closeFile]) := by
  have h := c4_invalid_type (mkDefaultSettings "" "") (PutOutcome.status 200) "app.txt" none
    [1, 2] (by decide)
  rw [h]
  decide

/-- Claim C5: an upload whose body has byte length exactly 0 is answered
with HTTP 400 for every filename (valid or invalid extension) and no
put-object call is made; when the filename passes the pre-check the
rejection is the EmptyFile error (the size-limit check, which precedes
it, cannot fire for a non-negative configured maximum). -/
theorem c5_empty_rejected (settings : Settings) (store : PutOutcome) (filename : String)
    (customName : Option String) (content : List Nat)
    (hlen : content.length = 0) (hmax : 0 ≤ settings.maxUploadSize) :
    (uploadPackage settings store filename customName content).1.statusCode = 400 ∧
    ((uploadPackage settings store filename customName content).2.countP Effect.isPut) = 0 ∧
    (handlerAccepts filename = true →
      uploadPackage settings store filename customName content =
        (HResponse.err 400 "Empty file uploaded", [Effect.readBody, Effect.closeFile])) := by
  have hc : content = [] := List.length_eq_zero.mp hlen
  subst hc
  by_cases ha : handlerAccepts filename = true
  · have hneg : ¬ (settings.maxUploadSize < 0) := by omega
    have hrun : uploadPackage settings store filename customName [] =
        (HResponse.err 400 "Empty file uploaded", [Effect.readBody, Effect.closeFile]) := by
      simp [uploadPackage, ha, hneg]
    exact ⟨by rw [hrun]; rfl, by rw [hrun]; rfl, fun _ => hrun⟩
  · have ha2 : handlerAccepts filename = false := by
      simpa using ha
    have hrun : uploadPackage settings store filename customName [] =
        (HResponse.err 400 ("Invalid file type. Only APK and AAB files are allowed. Got: " ++
          filename), [Effect.closeFile]) := by
      simp [uploadPackage, ha2]
    exact ⟨by rw [hrun]; rfl, by rw [hrun]; rfl, fun hcontra => absurd hcontra (by simp [ha2])⟩

/-- Claim C5 (witness) at the valid filename "app.apk" with the default
configuration. -/
theorem c5_witness :
    (uploadPackage (mkDefaultSettings "" "") (PutOutcome.status 200) "app.apk" none []).1.statusCode
      = 400 ∧
    ((uploadPackage (mkDefaultSettings "" "") (PutOutcome.status 200) "app.apk" none []).2.countP
      Effect.isPut) = 0 ∧
    (handlerAccepts "app.apk" = true →
      uploadPackage (mkDefaultSettings "" "") (PutOutcome.status 200) "app.apk" none [] =
        (HResponse.err 400 "Empty file uploaded", [Effect.readBody, Effect.closeFile])) :=
  c5_empty_rejected (mkDefaultSettings "" "") (PutOutcome.status 200) "app.apk" none []
    (by decide) (by decide)

/-- Claim C3 (counterexample): with the default 250 MiB limit and a
263192576-byte (251 MiB) payload, the handler answers 413 with detail
"File too large. Maximum size: 250.0MB, Got: 251.00MB": the actual size
is rendered to 2 decimal places, but the configured limit is rendered
with Python's default float formatting as "250.0" — the message nowhere
contains the 2-decimal rendering "250.00" the claim requires. -/
theorem c3_counterexample :
    (uploadPackage (mkDefaultSettings "" "") (PutOutcome.status 200) "app.apk" none
        (List.replicate 263192576 0)).1 =
      HResponse.err 413 "File too large. Maximum size: 250.0MB, Got: 251.00MB" ∧
    containsSubStr "File too large. Maximum size: 250.0MB, Got: 251.00MB" "250.00" = false := by
  constructor
  · simp only [uploadPackage, List.length_replicate]
    decide
  · decide

/-- Claim C3 (amended): for every payload whose byte length strictly
exceeds the configured maximum, the handler rejects with HTTP 413 before
any put-object call, and the error message reports the actual size in
mebibytes to 2 decimal places but the configured limit with Python's
default float formatting (e.g. "250.0" for the default limit), where
actual = len/1024/1024 and limit = max/1024/1024. -/
theorem c3_amended (settings : Settings) (store : PutOutcome) (filename : String)
    (customName : Option String) (content : List Nat)
    (ha : handlerAccepts filename = true)
    (hsz : (content.length : Int) > settings.maxUploadSize) :
    uploadPackage settings store filename customName content =
      (HResponse.err 413 ("File too large. Maximum size: " ++
          pyFloatStr ⟨settings.maxUploadSize, 1024 * 1024⟩ ++ "MB, Got: " ++
          pyFixed2 ⟨(content.length : Int), 1024 * 1024⟩ ++ "MB"),
       [Effect.readBody, Effect.closeFile]) := by
  simp [uploadPackage, ha, hsz, tooLargeDetail]

/-- Claim C3 (witness for the amended theorem): a 252 MiB payload against
the default configuration. -/
theorem c3_witness :
    uploadPackage (mkDefaultSettings "" "") (PutOutcome.status 200) "app.apk" none
        (List.replicate 264241152 0) =
      (HResponse.err 413 "File too large. Maximum size: 250.0MB, Got: 252.00MB",
       [Effect.readBody, Effect.closeFile]) := by
  have h := c3_amended (mkDefaultSettings "" "") (PutOutcome.status 200) "app.apk" none
    (List.replicate 264241152 0) (by decide)
    (by simp only [List.length_replicate]; decide)
  rw [h]
  simp only [List.length_replicate]
  decide

/-- Claim C1: for every non-empty custom name, every filename whose
validated extension succeeds, and every configured prefix, the single
put-object call of uploadFile uses the object key formed from the prefix,
a '/', the custom name with every substring occurrence of '.apk' removed
and then every substring occurrence of '.aab' removed (not just a
trailing match), and the validated extension of the original filename
appended. -/
theorem c1_custom_name_key (u : OSSUploader) (store : PutOutcome) (fileLen : Nat)
    (filename customName extension : String)
    (hc : customName ≠ "")
    (hv : validateFileExtension filename = Except.ok extension) :
    (uploadFile u store fileLen filename (some customName)).2 =
      [Effect.putObject (u.pre ++ "/" ++ specStripped customName ++ extension)
        (contentTypeFor extension) fileLen] := by
  have hbne : (customName != "") = true := by
    simpa [bne_iff_ne] using hc
  have hkey : objectNameFor u filename (some customName) extension =
      u.pre ++ "/" ++ specStripped customName ++ extension := by
    rw [objectNameFor]
    rw [if_pos hbne]
    rw [stripExtensions_eq_specStripped]
  cases store with
  | raisesError m => simp [uploadFile, hv, hkey]
  | status code =>
    by_cases h200 : code = 200 <;> simp [uploadFile, hv, hkey, h200]

/-- Claim C1 (witness): filename "app-release.aab", custom name
"myapp.apk" and the default prefix "android-packages" produce exactly the
key "android-packages/myapp.aab". -/
theorem c1_witness :
    validateFileExtension "app-release.aab" = Except.ok ".aab" ∧
    (uploadFile (getUploader (mkDefaultSettings "" "")) (PutOutcome.status 200) 7
        "app-release.aab" (some "myapp.apk")).2 =
      [Effect.putObject "android-packages/myapp.aab" "application/x-authorware-bin" 7] := by
  constructor
  · rfl
  · have h := c1_custom_name_key (getUploader (mkDefaultSettings "" ""))
      (PutOutcome.status 200) 7 "app-release.aab" "myapp.apk" ".aab" (by decide) rfl
    rw [h]
    decide

/-- Claim C8: with no custom name supplied, the single put-object call of
uploadFile uses the object key formed from the configured prefix, a '/',
and the original filename verbatim. -/
theorem c8_default_key (u : OSSUploader) (store : PutOutcome) (fileLen : Nat)
    (filename extension : String)
    (hv : validateFileExtension filename = Except.ok extension) :
    (uploadFile u store fileLen filename none).2 =
      [Effect.putObject (u.pre ++ "/" ++ filename) (contentTypeFor extension) fileLen] := by
  have hkey : objectNameFor u filename none extension = u.pre ++ "/" ++ filename := rfl
  cases store with
  | raisesError m => simp [uploadFile, hv, hkey]
  | status code =>
    by_cases h200 : code = 200 <;> simp [uploadFile, hv, hkey, h200]

/-- Claim C8 (witness): filename "app.apk" with prefix "android-packages"
produces exactly the key "android-packages/app.apk". -/
theorem c8_witness :
    validateFileExtension "app.apk" = Except.ok ".apk" ∧
    (uploadFile (getUploader (mkDefaultSettings "" "")) (PutOutcome.status 200) 3
        "app.apk" none).2 =
      [Effect.putObject "android-packages/app.apk"
        "application/vnd.android.package-archive" 3] := by
  constructor
  · rfl
  · have h := c8_default_key (getUploader (mkDefaultSettings "" "")) (PutOutcome.status 200) 3
      "app.apk" ".apk" rfl
    rw [h]
    decide

/-- Claim C6: on a successful put-object call (status 200), uploadFile
returns a result whose url is the fixed public download host
"https://download.macaron.chat/" concatenated with the computed object
key, whose size_mb is the byte length divided by 1,048,576 rounded to 2
decimal places (ties to even), whose bucket is the configured bucket
name, and whose file_type is the validated extension without the dot,
upper-cased — hence "APK" or "AAB". -/
theorem c6_success_result (u : OSSUploader) (fileLen : Nat) (filename : String)
    (customName : Option String) (extension : String)
    (hv : validateFileExtension filename = Except.ok extension) :
    uploadFile u (PutOutcome.status 200) fileLen filename customName =
      (Except.ok
        { success := true,
          url := "https://download.macaron.chat/" ++ objectNameFor u filename customName extension,
          object_name := objectNameFor u filename customName extension,
          bucket := u.bucketName,
          file_type := pyUpper (pyLstripDot extension),
          size_mb := pyRound2 ⟨(fileLen : Int), 1024 * 1024⟩ },
       [Effect.putObject (objectNameFor u filename customName extension)
          (contentTypeFor extension) fileLen]) ∧
    (pyUpper (pyLstripDot extension) = "APK" ∨ pyUpper (pyLstripDot extension) = "AAB") := by
  constructor
  · simp [uploadFile, hv]
  · have hmem : extension ∈ SUPPORTED_EXTENSIONS := validate_ok_mem hv
    have hcases : extension = ".apk" ∨ extension = ".aab" := by
      simpa [SUPPORTED_EXTENSIONS] using hmem
    rcases hcases with h | h <;> subst h
    · exact Or.inl (by decide)
    · exact Or.inr (by decide)

/-- Claim C6 (witness): a 1 MiB upload of "app.apk" with the default
configuration; size_mb is the exact fraction 100/100 = 1.00. -/
theorem c6_witness :
    uploadFile (getUploader (mkDefaultSettings "" "")) (PutOutcome.status 200) 1048576
        "app.apk" none =
      (Except.ok
        { success := true,
          url := "https://download.macaron.chat/android-packages/app.apk",
          object_name := "android-packages/app.apk",
          bucket := "macaron-system",
          file_type := "APK",
          size_mb := ⟨100, 100⟩ },
       [Effect.putObject "android-packages/app.apk"
          "application/vnd.android.package-archive" 1048576]) := by
  have h := (c6_success_result (getUploader (mkDefaultSettings "" "")) 1048576 "app.apk"
    none ".apk" rfl).1
  rw [h]
  rfl

/-- Claim C7: when the put-object call returns a non-success status or
raises a transport error, uploadFile fails with a single wrapped error
whose message is the fixed prefix "Failed to upload Android package: "
followed by the original status/error text, and the store is invoked
exactly once (no retry). -/
theorem c7_failure_wrapped_once (u : OSSUploader) (store : PutOutcome) (fileLen : Nat)
    (filename : String) (customName : Option String) (extension : String)
    (hv : validateFileExtension filename = Except.ok extension)
    (hf : store ≠ PutOutcome.status 200) :
    (uploadFile u store fileLen filename customName).1 =
      Except.error (UploadError.exn
        ("Failed to upload Android package: " ++ originalErrText store)) ∧
    ((uploadFile u store fileLen filename customName).2.countP Effect.isPut) = 1 := by
  cases store with
  | raisesError m =>
    constructor
    · simp [uploadFile, hv, originalErrText]
    · simp [uploadFile, hv, List.countP, List.countP.go, Effect.isPut]
  | status code =>
    have hc : code ≠ 200 := by
      intro h
      exact hf (by rw [h])
    constructor
    · simp [uploadFile, hv, hc, originalErrText]
      rw [← String.append_assoc]
      rfl
    · simp [uploadFile, hv, hc, List.countP, List.countP.go, Effect.isPut]

/-- Claim C7 (witness): a put-object call answered with status 500. -/
theorem c7_witness :
    (uploadFile (getUploader (mkDefaultSettings "" "")) (PutOutcome.status 500) 3
        "app.apk" none).1 =
      Except.error (UploadError.exn
        "Failed to upload Android package: Upload failed with status: 500") ∧
    ((uploadFile (getUploader (mkDefaultSettings "" "")) (PutOutcome.status 500) 3
        "app.apk" none).2.countP Effect.isPut) = 1 := by
  have h := c7_failure_wrapped_once (getUploader (mkDefaultSettings "" ""))
    (PutOutcome.status 500) 3 "app.apk" none ".apk" rfl (by decide)
  constructor
  · rw [h.1]
    rfl
  · exact h.2

/-- Claim C9: the content type passed as the Content-Type header of the
single put-object call is selected by the validated extension: ".apk"
maps to "application/vnd.android.package-archive", ".aab" maps to
"application/x-authorware-bin", and any other extension (unreachable
after validation) maps to "application/octet-stream". -/
theorem c9_content_type_selection (u : OSSUploader) (store : PutOutcome) (fileLen : Nat)
    (filename : String) (customName : Option String) (extension : String)
    (hv : validateFileExtension filename = Except.ok extension) :
    (uploadFile u store fileLen filename customName).2 =
      [Effect.putObject (objectNameFor u filename customName extension)
        (contentTypeFor extension) fileLen] ∧
    contentTypeFor ".apk" = "application/vnd.android.package-archive" ∧
    contentTypeFor ".aab" = "application/x-authorware-bin" ∧
    (∀ e : String, e ≠ ".apk" → e ≠ ".aab" → contentTypeFor e = "application/octet-stream") := by
  refine ⟨?_, by decide, by decide, ?_⟩
  · cases store with
    | raisesError m => simp [uploadFile, hv]
    | status code =>
      by_cases h200 : code = 200 <;> simp [uploadFile, hv, h200]
  · intro e h1 h2
    simp [contentTypeFor, h1, h2]

/-- Claim C9 (witness): the ".aab" header on a concrete call, and the
default branch at the unsupported extension ".zip". -/
theorem c9_witness :
    (uploadFile (getUploader (mkDefaultSettings "" "")) (PutOutcome.status 200) 5
        "b.aab" none).2 =
      [Effect.putObject "android-packages/b.aab" "application/x-authorware-bin" 5] ∧
    contentTypeFor ".zip" = "application/octet-stream" := by
  have h := c9_content_type_selection (getUploader (mkDefaultSettings "" ""))
    (PutOutcome.status 200) 5 "b.aab" none ".aab" rfl
  constructor
  · rw [h.1]
    decide
  · exact h.2.2.2 ".zip" (by decide) (by decide)

/-- Claim C10: a supplied custom name equal to the empty string is falsy,
so uploadFile behaves exactly as if no custom name were supplied — in
particular the object key of the put-object call is the prefix, a '/',
and the original filename verbatim, with no extension-stripping step. -/
theorem c10_empty_custom_name (u : OSSUploader) (store : PutOutcome) (fileLen : Nat)
    (filename : String) :
    uploadFile u store fileLen filename (some "") = uploadFile u store fileLen filename none ∧
    (∀ extension : String, validateFileExtension filename = Except.ok extension →
      (uploadFile u store fileLen filename (some "")).2 =
        [Effect.putObject (u.pre ++ "/" ++ filename) (contentTypeFor extension) fileLen]) := by
  have hkey : ∀ extension, objectNameFor u filename (some "") extension =
      objectNameFor u filename none extension := by
    intro extension
    rw [objectNameFor, objectNameFor]
    simp
  constructor
  · cases hval : validateFileExtension filename with
    | error m => simp [uploadFile, hval]
    | ok extension => simp [uploadFile, hval, hkey]
  · intro extension hv
    have hkey2 : objectNameFor u filename (some "") extension = u.pre ++ "/" ++ filename := by
      rw [hkey]
      rfl
    cases store with
    | raisesError m => simp [uploadFile, hv, hkey2]
    | status code =>
      by_cases h200 : code = 200 <;> simp [uploadFile, hv, hkey2, h200]

/-- Claim C10 (witness): custom name "" on "app.apk" coincides with the
no-custom-name run and uses the verbatim key. -/
theorem c10_witness :
    uploadFile (getUploader (mkDefaultSettings "" "")) (PutOutcome.status 200) 5
        "app.apk" (some "") =
      uploadFile (getUploader (mkDefaultSettings "" "")) (PutOutcome.status 200) 5
        "app.apk" none ∧
    (uploadFile (getUploader (mkDefaultSettings "" "")) (PutOutcome.status 200) 5
        "app.apk" (some "")).2 =
      [Effect.putObject "android-packages/app.apk"
        "application/vnd.android.package-archive" 5] := by
  have h := c10_empty_custom_name (getUploader (mkDefaultSettings "" ""))
    (PutOutcome.status 200) 5 "app.apk"
  constructor
  · exact h.1
  · rw [h.2 ".apk" rfl]
    decide
